import Mathlib

/-!
Verification of the trap-space module of PyBoolNet (`src/pyboolnet/trap_spaces.py`)
against its natural-language specification.

The Python module is shallowly embedded: dictionaries become insertion-ordered
association lists, the external grounder/solver pipeline is modelled by passing
the raw textual output and error streams of the solving process as explicit
inputs, file writes become an explicit list of (file name, content) pairs in the
result, and fatal errors (`assert`, `sys.exit`, uncaught exceptions) become
`Except.error` values.  A small number of collaborator functions that live in
other modules of the repository (`active_primes`, `create_constants`,
`percolate_and_keep_constants`, `subspace2str`) are modelled from the
specification; each such definition is marked `Modelled from the spec:`.
-/

namespace PyBN

/-- A prime implicant: an insertion-ordered partial assignment of variables to
values, as the items of a Python dict. -/
abbrev Prime := List (String × Int)

/-- The prime-implicant structure: for each variable name, the list of primes
for value 0 and the list of primes for value 1 (Python `primes[name][0]` and
`primes[name][1]`), as an insertion-ordered association list. -/
abbrev Primes := List (String × (List Prime × List Prime))

/-- A subspace: an insertion-ordered partial assignment of variables to values,
as the items of a Python dict. -/
abbrev Subspace := List (String × Int)

/-- Fatal outcomes of the Python code: a failed `assert`, a `sys.exit()` call,
a `TypeError` (e.g. `open(None, "w")`), and the `IndexError`/`ValueError`
exceptions the decoder can raise on malformed solver output. -/
inductive PyErr where
  | assertionError
  | sysExit
  | typeError
  | indexError
  | valueError
deriving DecidableEq, Repr

/-- A bound endpoint as accepted by `potassco_handle`: an integer or the
symbolic string `"n"` (resolved to the number of variables). -/
inductive Bnd where
  | int (i : Int)
  | n
deriving DecidableEq, Repr

/-- One decoded solution: a subspace, a (circuit, percolated) pair, or their
string renderings after representation conversion. -/
inductive Solution where
  | sub (s : Subspace)
  | pair (circ perc : Subspace)
  | subStr (s : String)
  | pairStr (circ perc : String)
deriving DecidableEq, Repr

/-- The observable outcome of `potassco_handle`: the generated program text,
the file writes performed (a side effect of `primes2asp`), whether the
"possibly more solutions" notice was logged, and the decoded solutions
(the Python return value). -/
structure Handled where
  asp_text : String
  writes : List (String × String)
  possibly_more : Bool
  solutions : List Solution
deriving DecidableEq, Repr

/-- Python truthiness of an optional list (`if project:`): `None` and the
empty list are falsy. -/
def pyTruthyList {α : Type} (o : Option (List α)) : Bool :=
  match o with
  | none => false
  | some l => !l.isEmpty

/-- Python slice `s[a:-b]` for non-negative `a` and positive `b`. -/
def pySlice (s : String) (a b : Nat) : String :=
  String.mk ((s.toList.take (s.toList.length - b)).drop a)

/-- Split a character list at every character satisfying `p`, keeping empty
chunks (the helper behind Python string splitting). -/
def splitWhen (p : Char → Bool) : List Char → List (List Char)
  | [] => [[]]
  | h :: t =>
    match splitWhen p t with
    | [] => [[]]
    | g :: gs => if p h then [] :: g :: gs else (h :: g) :: gs

/-- Python `s.split(sep)` for a one-character separator, e.g. `split("\n")`
and `split(",")`: empty chunks are kept. -/
def pySplitOn (s : String) (c : Char) : List String :=
  (splitWhen (fun d => d = c) s.toList).map String.mk

/-- Python `str.split()` with no argument: split on whitespace runs, dropping
empty tokens. -/
def pySplitWs (s : String) : List String :=
  ((splitWhen Char.isWhitespace s.toList).map String.mk).filter (fun t => t ≠ "")

/-- Python `int(s)` on a decimal literal with optional sign and surrounding
whitespace; `none` models the `ValueError` on anything else. -/
def pyInt (s : String) : Option Int :=
  let t := ((s.toList.dropWhile Char.isWhitespace).reverse.dropWhile Char.isWhitespace).reverse
  let p : Int × List Char :=
    match t with
    | '-' :: rest => (-1, rest)
    | '+' :: rest => (1, rest)
    | _ => (1, t)
  if p.2 ≠ [] ∧ p.2.all Char.isDigit then
    some (p.1 * (Int.ofNat (p.2.foldl (fun acc c => acc * 10 + (c.toNat - 48)) 0)))
  else none

/-- Insertion into a Python dict held as an association list: an existing key
keeps its position and gets the new value, a new key is appended. -/
def dictInsert (d : List (String × Int)) (k : String) (v : Int) : List (String × Int) :=
  match d with
  | [] => [(k, v)]
  | (k2, v2) :: rest => if k2 = k then (k2, v) :: rest else (k2, v2) :: dictInsert rest k v

/-- Python `dict(pairs)`: later duplicates overwrite earlier ones in place. -/
def pyDict (l : List (String × Int)) : Subspace :=
  l.foldl (fun d kv => dictInsert d kv.1 kv.2) []

/-- Check that `needle` is a prefix of `hay` (over characters). -/
def charsHasPfx : List Char → List Char → Bool
  | [], _ => true
  | _ :: _, [] => false
  | n :: ns, h :: hs => n = h && charsHasPfx ns hs

/-- Check that `needle` occurs as a contiguous run inside `hay`. -/
def charsContains (needle : List Char) : List Char → Bool
  | [] => charsHasPfx needle []
  | h :: t => charsHasPfx needle (h :: t) || charsContains needle t

/-- Python `needle in hay` on strings. -/
def strContains (hay needle : String) : Bool :=
  charsContains needle.toList hay.toList

/-- Python `repr` of a list of strings, e.g. `['a', 'b']`. -/
def pyReprStrList (l : List String) : String :=
  "[" ++ String.intercalate ", " (l.map (fun s => "\x27" ++ s ++ "\x27")) ++ "]"

/-- Python `sorted` on strings (ascending lexicographic order). -/
def pySortedStrings (l : List String) : List String :=
  List.insertionSort (· ≤ ·) l

/-- Modelled from the spec: `subspace2str` (module `pyboolnet.state_space`, not
under `src/`) renders a subspace as fixed-order bits over the network's
variables, one character per variable, `-` for free variables (spec section 8:
"all trap spaces in string form with fixed-order bits x,y,z ... `---, --1,
1-1, -00, 101`"). -/
def subspace2str (primes : Primes) (s : Subspace) : String :=
  String.join (primes.map (fun e =>
    match s.lookup e.1 with
    | some v => toString v
    | none => "-"))

/-- A prime is consistent with a subspace when none of its literals contradicts
the subspace. -/
def primeConsistent (subspace : Subspace) (p : Prime) : Bool :=
  p.all (fun nv =>
    match subspace.lookup nv.1 with
    | none => true
    | some v => v = nv.2)

/-- Modelled from the spec: `active_primes` (module
`pyboolnet.prime_implicants`, not under `src/`) restricts "the prime-implicant
set to those still active given the subspace" (spec section 4.4): per variable,
it keeps the primes consistent with the subspace. -/
def active_primes (primes : Primes) (subspace : Subspace) : Primes :=
  primes.map (fun e =>
    (e.1, (e.2.1.filter (primeConsistent subspace), e.2.2.filter (primeConsistent subspace))))

/-- The prime-implicant entry of a constant variable: value 0 is `[[\x7b\x7d], []]`,
value 1 is `[[], [\x7b\x7d]]`. -/
def constantEntry (v : Int) : List Prime × List Prime :=
  if v = 0 then ([[]], []) else ([], [[]])

/-- Modelled from the spec: `create_constants` (module
`pyboolnet.prime_implicants`, not under `src/`) installs each (name, value)
pair of the subspace as a constant in the prime structure; with
`in_place=True` this happens on the caller's own structure (spec sections 3, 5
and 9 on in-place mutation during percolation). -/
def create_constants (primes : Primes) (subspace : Subspace) (in_place : Bool) : Primes :=
  primes.map (fun e =>
    match subspace.lookup e.1 with
    | some v => (e.1, constantEntry v)
    | none => e)

/-- The constant variables of a prime structure together with their values. -/
def constantsOf (primes : Primes) : Subspace :=
  primes.filterMap (fun e =>
    if e.2 = constantEntry 0 then some (e.1, 0)
    else if e.2 = constantEntry 1 then some (e.1, 1)
    else none)

/-- Substitution of known constants into a list of primes: contradicted primes
are dropped and satisfied literals removed. -/
def substConstants (cs : Subspace) (ps : List Prime) : List Prime :=
  (ps.filter (primeConsistent cs)).map (fun p =>
    p.filter (fun nv => (cs.lookup nv.1).isNone))

/-- One step of percolation: substitute the current constants into every prime
(dropping contradicted primes and satisfied literals) and turn every variable
with a now-trivial prime into a constant. -/
def percolateStep (primes : Primes) : Primes :=
  primes.map (fun e =>
    let p0 := substConstants (constantsOf primes) e.2.1
    let p1 := substConstants (constantsOf primes) e.2.2
    if p0.contains [] ∧ ¬ p1.contains [] then (e.1, constantEntry 0)
    else if p1.contains [] ∧ ¬ p0.contains [] then (e.1, constantEntry 1)
    else (e.1, (p0, p1)))

/-- Iterate `percolateStep` a given number of times. -/
def percolateFix : Nat → Primes → Primes
  | 0, p => p
  | k + 1, p => percolateFix k (percolateStep p)

/-- Modelled from the spec: `percolate_and_keep_constants` (module
`pyboolnet.prime_implicants`, not under `src/`) performs "fixed-point
propagation of already-fixed variable values through update rules to discover
further forced (constant) variables" (spec glossary), mutating the structure in
place and returning the constants.  The first component is the structure after
the call, the second the returned constants. -/
def percolate_and_keep_constants (primes : Primes) : Primes × Subspace :=
  let p2 := percolateFix primes.length primes
  (p2, constantsOf p2)

/-- Embedding of `percolate_trapspace` (trap_spaces.py lines 44-66).  The first
component of the result is the caller's `primes` object after the call: the
function calls `create_constants(primes, trap_space, in_place=True)` and then
`percolate_and_keep_constants(primes)`, both of which mutate the caller's
structure in place.  The second component is the returned percolated trap
space. -/
def percolate_trapspace (primes : Primes) (trap_space : Subspace) : Primes × Subspace :=
  let primes2 := create_constants primes trap_space true
  let r := percolate_and_keep_constants primes2
  (r.1, r.2)

/-- Python `sorted(primes.keys())` (trap_spaces.py line 394). -/
def sortedKeys (primes : Primes) : List String :=
  List.insertionSort (· ≤ ·) (primes.map Prod.fst)

/-- The arcs enumerated by the encoder loop (trap_spaces.py lines 393-401):
variables in sorted order, values in the order 0 then 1, then the primes of
that variable and value; each element is (name, value, prime). -/
def arcEnum (primes : Primes) : List (String × Int × Prime) :=
  (sortedKeys primes).flatMap (fun name =>
    let e := (primes.lookup name).getD ([], [])
    e.1.map (fun p => (name, (0 : Int), p)) ++ e.2.map (fun p => (name, (1 : Int), p)))

/-- The fact `target("name",value,aidx).` of an arc. -/
def targetFact (name : String) (value : Int) (idx : Nat) : String :=
  "target(\"" ++ name ++ "\"," ++ toString value ++ ",a" ++ toString idx ++ ")."

/-- The fact `source("name",value,aidx).` of an arc. -/
def sourceFact (name : String) (value : Int) (idx : Nat) : String :=
  "source(\"" ++ name ++ "\"," ++ toString value ++ ",a" ++ toString idx ++ ")."

/-- One hyper-arc line: the target fact followed by one source fact per literal
of the prime, joined by single spaces (trap_spaces.py lines 398-401). -/
def arcLine (nvp : String × Int × Prime) (idx : Nat) : String :=
  String.intercalate " "
    (targetFact nvp.1 nvp.2.1 idx :: nvp.2.2.map (fun sv => sourceFact sv.1 sv.2 idx))

/-- The hyper-arc lines with identifiers `a1, a2, ...` assigned in enumeration
order (the Python `index` counter starts at 0 and is incremented before each
use). -/
def arcLines (primes : Primes) : List String :=
  (arcEnum primes).enum.map (fun ie => arcLine ie.2 (ie.1 + 1))

/-- The header comment lines of the generated program (trap_spaces.py lines
386-391); `today` is the value of `datetime.date.today().strftime(...)`. -/
def headerLines (today : String) : List String :=
  ["% created on " ++ today ++ " using PyBoolNet",
   "% PyBoolNet is available at https://github.com/hklarner/PyBoolNet",
   "",
   "% encoding of prime implicants as hyper-arcs that consist of a unique \"target\" and (possibly) several \"sources\".",
   "% \"target\" and \"source\" are triplets that consist of a variable name, an activity and a unique arc-identifier. ",
   ""]

/-- The generator, consistency and stability rules (trap_spaces.py lines
404-413). -/
def generatorBlock : List String :=
  ["% generator: \"in_set(ID)\" specifies which arcs are chosen for a trap set (ID is unique for target(_,_,_)).",
   "\x7bin_set(ID) : target(V,S,ID)\x7d.",
   "",
   "% consistency constraint",
   ":- in_set(ID1), in_set(ID2), target(V,1,ID1), target(V,0,ID2).",
   "",
   "% stability constraint",
   ":- in_set(ID1), source(V,S,ID1), not in_set(ID2) : target(V,S,ID2).",
   ""]

/-- The closure rule: percolation for the `percolated` and `circuits` variants,
the bijection rule otherwise (trap_spaces.py lines 415-425). -/
def closureBlock (type_ : Option String) : List String :=
  if type_ = some "percolated" ∨ type_ = some "circuits" then
    ["% percolation constraint.",
     "% ensure that if all sources of a prime are hit then it must belong to the solution.",
     "in_set(ID) :- target(V,S,ID), hit(V1,S1) : source(V1,S1,ID)."]
  else
    ["% bijection constraint (between asp solutions and trap spaces)",
     "% to avoid the repetition of equivalent solutions we add all prime implicants",
     "% that agree with the current solution.",
     "in_set(ID) :- target(V,S,ID), hit(V,S), hit(V1,S1) : source(V1,S1,ID)."]

/-- The circuits rules, present only for the `circuits` variant
(trap_spaces.py lines 427-432). -/
def circuitsBlock (type_ : Option String) : List String :=
  if type_ = some "circuits" then
    ["",
     "% circuits constraint, distinguishes between circuit nodes and percolated nodes",
     "upstream(V1,V2) :- in_set(ID), target(V1,S1,ID), source(V2,S2,ID).",
     "upstream(V1,V2) :- upstream(V1,V3), upstream(V3,V2).",
     "percolated(V1) :- hit(V1,S), not upstream(V1,V1)."]
  else []

/-- The rule deriving `hit` facts (trap_spaces.py lines 434-436). -/
def hitBlock : List String :=
  ["",
   "% \"hit\" captures the stable variables and their activities.",
   "hit(V,S) :- in_set(ID), target(V,S,ID)."]

/-- The lower cardinality constraint `:- \x7bhit(V,S)\x7d lo-1.` emitted for a lower
bound `lo` (trap_spaces.py line 442). -/
def lowerCardLine (lo : Int) : String :=
  ":- \x7bhit(V,S)\x7d " ++ toString (lo - 1) ++ "."

/-- The upper cardinality constraint `:- hi+1 \x7bhit(V,S)\x7d.` emitted for an upper
bound `hi` (trap_spaces.py line 443). -/
def upperCardLine (hi : Int) : String :=
  ":- " ++ toString (hi + 1) ++ " \x7bhit(V,S)\x7d."

/-- The cardinality block (trap_spaces.py lines 438-443): for a given bounds
pair, a comment, the lower constraint only when `lo > 0`, and the upper
constraint; nothing when bounds is `None`. -/
def boundsBlock (bounds : Option (Int × Int)) : List String :=
  match bounds with
  | none => []
  | some lh =>
    ["",
     "% cardinality constraint (enforced by \"Bounds=(" ++ toString lh.1 ++ ", " ++ toString lh.2 ++ ")\")"]
    ++ (if lh.1 > 0 then [lowerCardLine lh.1] else [])
    ++ [upperCardLine lh.2]

/-- The extra constraint lines, appended verbatim when the argument is truthy
(trap_spaces.py lines 445-446). -/
def extraBlock (extra_lines : Option (List String)) : List String :=
  if pyTruthyList extra_lines then extra_lines.getD [] else []

/-- The output directives (trap_spaces.py lines 448-462): the projection
`#show` lines when the (already filtered) projection list is truthy, otherwise
the circuits or the default `#show` block. -/
def showBlock (project : Option (List String)) (type_ : Option String) : List String :=
  if pyTruthyList project then
    ["", "% show projection (enforced by \"Project=" ++ pyReprStrList (pySortedStrings (project.getD [])) ++ "\")."]
    ++ ["#show."]
    ++ (project.getD []).map (fun name =>
        "#show hit(\"" ++ name ++ "\",S) : hit(\"" ++ name ++ "\",S).")
  else if type_ = some "circuits" then
    ["",
     "% show fixed nodes and distinguish between circuits and percolated",
     "#show percolated/1.",
     "#show hit/2."]
  else
    ["",
     "% show fixed nodes",
     "#show hit/2."]

/-- The lines of the program text generated by `primes2asp` (trap_spaces.py
lines 383-462), in emission order.  `project0` is the caller's projection
argument; the function first filters it down to names present in `primes`
(only when it is truthy), exactly as line 383-384 do. -/
def primes2asp_lines (today : String) (primes : Primes) (bounds : Option (Int × Int))
    (project0 : Option (List String)) (type_ : Option String)
    (extra_lines : Option (List String)) : List String :=
  let project := if pyTruthyList project0 then
    some ((project0.getD []).filter (fun x => (primes.lookup x).isSome))
  else project0
  headerLines today
  ++ arcLines primes
  ++ [""]
  ++ generatorBlock
  ++ closureBlock type_
  ++ circuitsBlock type_
  ++ hitBlock
  ++ boundsBlock bounds
  ++ extraBlock extra_lines
  ++ showBlock project type_

/-- The program text generated by `primes2asp`: its lines joined by newlines
(trap_spaces.py line 464). -/
def primes2asp_text (today : String) (primes : Primes) (bounds : Option (Int × Int))
    (project : Option (List String)) (type_ : Option String)
    (extra_lines : Option (List String)) : String :=
  String.intercalate "\n" (primes2asp_lines today primes bounds project type_ extra_lines)

/-- The list of variants accepted by the `primes2asp` assertion
(trap_spaces.py line 378). -/
def validAspTypes : List (Option String) :=
  [none, some "max", some "min", some "all", some "percolated", some "circuits"]

/-- Embedding of `primes2asp` (trap_spaces.py lines 339-470).  The result is
the returned program text together with the file writes performed.  The write
`open(fname_asp, "w")` is executed unconditionally; when `fname_asp` is `None`
it raises `TypeError`, modelled as `Except.error PyErr.typeError`. -/
def primes2asp (today : String) (primes : Primes) (fname_asp : Option String)
    (bounds : Option (Int × Int)) (project : Option (List String))
    (type_ : Option String) (extra_lines : Option (List String)) :
    Except PyErr (String × List (String × String)) :=
  if type_ ∉ validAspTypes then .error .assertionError
  else
    let asp_text := primes2asp_text today primes bounds project type_ extra_lines
    match fname_asp with
    | none => .error .typeError
    | some f => .ok (asp_text, [(f, asp_text)])

/-- Parse one comma-split token of a solution line into a (name, value) pair
(trap_spaces.py lines 576-577 and 558-559): Python evaluates
`(x[0][1:-1], int(x[1]))`, raising `IndexError` when `x[1]` is missing and
`ValueError` when `int` fails; both are modelled as `none`. -/
def parseStrVal (x : List String) : Option (String × Int) :=
  match x with
  | [] => none
  | a0 :: rest =>
    match rest.head? with
    | none => none
    | some a1 =>
      match pyInt a1 with
      | none => none
      | some v => some (pySlice a0 1 1, v)

/-- Decode one solution line of an ordinary (non-circuits) answer
(trap_spaces.py lines 576-578): split on whitespace, strip `hit(` and `)` via
the slice `[4:-1]`, split on commas, parse each pair, build a dict. -/
def decodePlainLine (line : String) : Option Solution :=
  let d := (pySplitWs line).map (fun x => pySplitOn (pySlice x 4 1) ',')
  match d.mapM parseStrVal with
  | none => none
  | some pairs => some (.sub (pyDict pairs))

/-- Decode one solution line of a circuits answer (trap_spaces.py lines
557-568): the hit facts become the trap space, the `percolated(...)` markers
name the percolated subset, and the circuit subset is everything hit that is
not percolated. -/
def decodeCircuitsLine (line : String) : Option Solution :=
  let toks := pySplitWs line
  let d := (toks.filter (fun x => strContains x "hit")).map (fun x => pySplitOn (pySlice x 4 1) ',')
  match d.mapM parseStrVal with
  | none => none
  | some tspace =>
    let percNames := (toks.filter (fun x => strContains x "perc")).map (fun x => pySlice x 12 2)
    let perc := pyDict (tspace.filter (fun x => percNames.contains x.1))
    let circ := pyDict (tspace.filter (fun x => (perc.lookup x.1).isNone))
    some (.pair circ perc)

/-- Decode the line following an `Answer` marker, according to the variant. -/
def parseSolutionLine (type_ : String) (line : String) : Option Solution :=
  if type_ = "circuits" then decodeCircuitsLine line else decodePlainLine line

/-- The decoding loop of `potassco_handle` (trap_spaces.py lines 550-578):
`while lines and len(result) < max_output`, popping a line; on an `Answer`
marker the next line is popped (raising `IndexError`, modelled as `none`, when
no line remains) and parsed into a solution.  The loop stops as soon as
`max_output` solutions have been collected. -/
def decodeLoop (type_ : String) (m : Nat) : List String → List Solution → Option (List Solution)
  | [], result => some result
  | line :: rest, result =>
    if result.length < m then
      if line.toList.take 6 = "Answer".toList then
        match rest with
        | [] => none
        | line2 :: rest2 =>
          match parseSolutionLine type_ line2 with
          | none => none
          | some s => decodeLoop type_ m rest2 (result ++ [s])
      else decodeLoop type_ m rest result
    else some result

/-- The decoder: split the raw solver output on newlines (trap_spaces.py line
547) and run the decoding loop. -/
def potassco_decode (type_ : String) (output : String) (m : Nat) : Option (List Solution) :=
  decodeLoop type_ m (pySplitOn output '\n') []

/-- The representation conversion of `potassco_handle` (trap_spaces.py lines
584-588).  Python dispatches on `type_`; the decoder guarantees that circuits
answers are pairs and all other answers are subspaces, so the fall-through
arms (where Python would fail to unpack) are unreachable. -/
def convertRepr (primes : Primes) (type_ representation : String) (sols : List Solution) :
    List Solution :=
  if representation = "str" then
    if type_ = "circuits" then
      sols.map (fun s => match s with
        | .pair c p => .pairStr (subspace2str primes c) (subspace2str primes p)
        | s => s)
    else
      sols.map (fun s => match s with
        | .sub d => .subStr (subspace2str primes d)
        | s => s)
  else sols

/-- Resolution of a symbolic bound endpoint (trap_spaces.py line 487):
`len(primes) if x == "n" else x`. -/
def resolveBnd (primes : Primes) (b : Bnd) : Int :=
  match b with
  | .n => primes.length
  | .int i => i

/-- Embedding of `potassco_handle` (trap_spaces.py lines 473-590).  The
external grounder/solver pipeline is modelled by the explicit inputs `rawOut`
and `rawErr`, the decoded standard output and error streams of the solving
process; the clasp command-line flags (lines 489-495) configure that external
process and have no further effect inside this function.  Validation errors
and the `"ERROR" in error` check call `sys.exit()`; exceptions raised by
`primes2asp` or the decoder propagate.  File writes on paths that later fail
are dropped by the `Except` modelling. -/
def potassco_handle (rawOut rawErr today : String) (primes : Primes) (type_ : String)
    (bounds : Option (Bnd × Bnd)) (project : Option (List String)) (max_output : Nat)
    (fname_asp : Option String) (representation : String)
    (extra_lines : Option (List String)) : Except PyErr Handled :=
  if type_ ∉ ["max", "min", "all", "percolated", "circuits"] then .error .sysExit
  else if representation ∉ ["str", "dict"] then .error .sysExit
  else
    let rbounds := bounds.map (fun lh => (resolveBnd primes lh.1, resolveBnd primes lh.2))
    match primes2asp today primes fname_asp rbounds project (some type_) extra_lines with
    | .error e => .error e
    | .ok tw =>
      if strContains rawErr "ERROR" then .error .sysExit
      else
        match potassco_decode type_ rawOut max_output with
        | none => .error .indexError
        | some result =>
          .ok ⟨tw.1, tw.2, result.length == max_output,
               convertRepr primes type_ representation result⟩

/-- Embedding of `trap_spaces` (trap_spaces.py lines 207-248): the `max`
variant excludes the trivial trap space via bounds `(1, "n")`. -/
def trap_spaces (rawOut rawErr today : String) (primes : Primes) (option : String)
    (max_output : Nat) (fname_asp : Option String) (representation : String) :
    Except PyErr Handled :=
  let Bounds := if option = "max" then some (Bnd.int 1, Bnd.n) else none
  potassco_handle rawOut rawErr today primes option Bounds none max_output fname_asp
    representation none

/-- Embedding of `steady_states` (trap_spaces.py lines 251-271). -/
def steady_states (rawOut rawErr today : String) (primes : Primes) (max_output : Nat)
    (fname_asp : Option String) (representation : String) : Except PyErr Handled :=
  potassco_handle rawOut rawErr today primes "all" (some (Bnd.n, Bnd.n)) (some [])
    max_output fname_asp representation none

/-- Embedding of `steady_states_projected` (trap_spaces.py lines 309-336):
projection names absent from `primes` are a fatal error (`sys.exit`), otherwise
the query runs with bounds `("n", "n")`. -/
def steady_states_projected (rawOut rawErr today : String) (primes : Primes)
    (project : List String) (max_output : Nat) (fname_asp : Option String) :
    Except PyErr Handled :=
  if (project.filter (fun x => (primes.lookup x).isNone)) ≠ [] then .error .sysExit
  else potassco_handle rawOut rawErr today primes "all" (some (Bnd.n, Bnd.n)) (some project)
    max_output fname_asp "dict" none

/-- The empty-subspace answer synthesized by `trapspaces_that_intersect_subspace`
(trap_spaces.py lines 126-132), in the chosen representation. -/
def emptyAnswer (primes : Primes) (representation : String) : Solution :=
  if representation = "str" then .subStr (subspace2str primes []) else .sub []

/-- Embedding of `trapspaces_that_intersect_subspace` (trap_spaces.py lines
92-143).  The string form of the `subspace` argument is converted to a dict by
the external `subspace2dict` before use, so the embedding takes the dict form
directly.  `tspaces.pop()` removes and returns the last element, raising
`IndexError` on an empty list (unreachable here, the empty case returns
earlier). -/
def trapspaces_that_intersect_subspace (rawOut rawErr today : String) (primes : Primes)
    (subspace : Subspace) (type_ : String) (fname_asp : Option String)
    (representation : String) (max_output : Nat) : Except PyErr Handled :=
  if ¬ (primes.length ≥ subspace.length) then .error .assertionError
  else
    let relevant_primes := active_primes primes subspace
    let bounds := if type_ = "max" then some (Bnd.int 1, Bnd.n) else none
    match potassco_handle rawOut rawErr today relevant_primes type_ bounds (some [])
        max_output fname_asp representation none with
    | .error e => .error e
    | .ok h =>
      if h.solutions = [] then
        .ok ⟨h.asp_text, h.writes, h.possibly_more, [emptyAnswer primes representation]⟩
      else if subspace.length = primes.length ∧ type_ = "min" then
        if h.solutions.length > 1 then .error .sysExit
        else
          match h.solutions.getLast? with
          | some x => .ok ⟨h.asp_text, h.writes, h.possibly_more, [x]⟩
          | none => .error .indexError
      else .ok h

/-- Embedding of `trapspaces_that_contain_state` (trap_spaces.py lines 69-89). -/
def trapspaces_that_contain_state (rawOut rawErr today : String) (primes : Primes)
    (state : Subspace) (type_ : String) (fname_asp : Option String)
    (representation : String) (max_output : Nat) : Except PyErr Handled :=
  trapspaces_that_intersect_subspace rawOut rawErr today primes state type_ fname_asp
    representation max_output

/-- Embedding of `smallest_trapspace` (trap_spaces.py lines 186-204). -/
def smallest_trapspace (rawOut rawErr today : String) (primes : Primes) (state : Subspace)
    (representation : String) : Except PyErr Handled :=
  trapspaces_that_contain_state rawOut rawErr today primes state "min" none representation 1000

/-- One must-hit constraint line `:- not hit("node",value).` of
`trapspaces_within_subspace` (trap_spaces.py line 178). -/
def mustHitLine (nv : String × Int) : String :=
  ":- not hit(\"" ++ nv.1 ++ "\"," ++ toString nv.2 ++ ")."

/-- The extra constraint lines of `trapspaces_within_subspace`
(trap_spaces.py lines 178-179): one must-hit line per (name, value) pair of
the subspace, followed by an empty line. -/
def withinExtraLines (subspace : Subspace) : List String :=
  subspace.map mustHitLine ++ [""]

/-- Embedding of `trapspaces_within_subspace` (trap_spaces.py lines 146-183):
the empty subspace degenerates to `trap_spaces`; otherwise the primes are
restricted to the active ones, the bounds are `(len(subspace), "n")`, and the
must-hit lines are passed as extra constraint lines. -/
def trapspaces_within_subspace (rawOut rawErr today : String) (primes : Primes)
    (subspace : Subspace) (type_ : String) (fname_asp : Option String)
    (representation : String) (max_output : Nat) : Except PyErr Handled :=
  if subspace = [] then
    trap_spaces rawOut rawErr today primes type_ max_output fname_asp representation
  else if ¬ (primes.length ≥ subspace.length) then .error .assertionError
  else
    let relevant_primes := active_primes primes subspace
    let bounds := some (Bnd.int subspace.length, Bnd.n)
    potassco_handle rawOut rawErr today relevant_primes type_ bounds (some [])
      max_output fname_asp representation (some (withinExtraLines subspace))

/-- A small concrete prime-implicant structure used by concrete witnesses and
counterexamples: one variable `x` whose value follows itself. -/
def W1primes : Primes := [("x", ([[("x", 0)]], [[("x", 1)]]))]

/-- A concrete raw solver output with two answer sets. -/
def R2 : String := "Answer: 1\nhit(\"x\",0)\nAnswer: 2\nhit(\"x\",1)\n"

/-- A concrete raw solver output with no answer sets. -/
def R0 : String := "UNSATISFIABLE\n"

/-- C10: passing an empty projection list to the encoder is equivalent to
passing no projection at all; `if project:` treats the empty list and `None`
identically, so no filtering is performed and no `#show` projection directives
are emitted, and the generated program text (and file write) is identical. -/
theorem c10_empty_projection_eq_none (today : String) (primes : Primes)
    (fname : Option String) (bounds : Option (Int × Int)) (type_ : Option String)
    (extra : Option (List String)) :
    primes2asp today primes fname bounds (some []) type_ extra
      = primes2asp today primes fname bounds none type_ extra := rfl

/-- C1 (amended): when a bounds pair `(lo, hi)` is given, the generated program
always contains the upper-bound cardinality constraint, and contains the
lower-bound cardinality constraint exactly when `lo > 0`; for `lo = 0` the
lower constraint is skipped and only one cardinality constraint is emitted. -/
theorem c1_cardinality_constraints (today : String) (primes : Primes) (lo hi : Int)
    (project : Option (List String)) (type_ : Option String) (extra : Option (List String)) :
    (0 < lo → lowerCardLine lo ∈ primes2asp_lines today primes (some (lo, hi)) project type_ extra)
    ∧ upperCardLine hi ∈ primes2asp_lines today primes (some (lo, hi)) project type_ extra := by
  constructor
  · intro h
    simp [primes2asp_lines, boundsBlock, h, List.mem_append]
  · simp [primes2asp_lines, boundsBlock, List.mem_append]

/-- C1 witness: a concrete instance of the amended theorem with `lo = 1`. -/
theorem c1_cardinality_constraints_witness :
    (0 : Int) < 1 ∧ lowerCardLine 1 ∈
      primes2asp_lines "01. Jan. 2020" W1primes (some (1, 2)) none (some "all") none :=
  ⟨by decide,
   (c1_cardinality_constraints "01. Jan. 2020" W1primes 1 2 none (some "all") none).1 (by decide)⟩

/-- C1 counterexample: with bounds `(0, 2)` the generated program contains
exactly one cardinality constraint (the upper one), not two as the claim
states; cardinality constraints are exactly the lines containing the counting
aggregate over hit facts. -/
theorem c1_counterexample :
    ((primes2asp_lines "01. Jan. 2020" W1primes (some (0, 2)) none (some "all") none).countP
      (fun l => strContains l "\x7bhit(V,S)\x7d")) = 1 := by decide

/-- C2 (code bug): `primes2asp` executes `open(fname_asp, "w")` without any
guard, so a call with `fname_asp = None` raises `TypeError` instead of
returning the program text without a file write; `potassco_handle` (and hence
every query with the default `fname_asp=None`) propagates the same failure,
even though the assertion on line 379 and the `fname_asp is None` branch on
line 500 show `None` is an intended input. -/
theorem c2_fname_none_raises (today : String) (primes : Primes)
    (bounds : Option (Int × Int)) (project : Option (List String)) (type_ : Option String)
    (extra : Option (List String)) (rawOut rawErr : String) (type2 : String)
    (bounds2 : Option (Bnd × Bnd)) (project2 : Option (List String)) (max_output : Nat)
    (representation : String) (extra2 : Option (List String))
    (h : type_ ∈ validAspTypes)
    (h2 : type2 ∈ ["max", "min", "all", "percolated", "circuits"])
    (h3 : representation ∈ ["str", "dict"]) :
    primes2asp today primes none bounds project type_ extra = .error .typeError
    ∧ potassco_handle rawOut rawErr today primes type2 bounds2 project2 max_output none
        representation extra2 = .error .typeError := by
  have hp : ∀ (b : Option (Int × Int)) (pr : Option (List String)) (t : Option String)
      (e : Option (List String)), t ∈ validAspTypes →
      primes2asp today primes none b pr t e = .error .typeError := by
    intro b pr t e ht
    simp [primes2asp, ht]
  refine ⟨hp bounds project type_ extra h, ?_⟩
  have h2v : (some type2 : Option String) ∈ validAspTypes := by
    fin_cases h2 <;> simp [validAspTypes]
  simp only [potassco_handle]
  rw [if_neg (by simp [h2]), if_neg (by simp [h3]), hp _ _ _ _ h2v]

/-- C2 witness: the concrete failing input, `fname_asp = None` with an
otherwise well-formed call. -/
theorem c2_fname_none_raises_witness :
    primes2asp "01. Jan. 2020" W1primes none none none (some "all") none = .error .typeError
    ∧ potassco_handle R0 "" "01. Jan. 2020" W1primes "all" none none 10 none "dict" none
        = .error .typeError :=
  c2_fname_none_raises "01. Jan. 2020" W1primes none none (some "all") none R0 "" "all"
    none none 10 "dict" none (by decide) (by decide) (by decide)

/-- The (variable, value) targets of the arcs, in identifier order. -/
def arcTargets (primes : Primes) : List (String × Int) :=
  (arcEnum primes).map (fun x => (x.1, x.2.1))

/-- The target order claimed for arc identifiers: lexicographic on the
variable name, and value 0 before value 1 for the same variable. -/
def targetOrd (a b : String × Int) : Prop :=
  a.1 < b.1 ∨ (a.1 = b.1 ∧ a.2 ≤ b.2)

/-- The (variable, value) targets contributed by one variable: one pair per
prime, value 0 before value 1. -/
def tgtsOf (primes : Primes) (name : String) : List (String × Int) :=
  let e := (primes.lookup name).getD ([], [])
  List.replicate e.1.length (name, (0 : Int)) ++ List.replicate e.2.length (name, (1 : Int))

lemma arcTargets_eq (primes : Primes) :
    arcTargets primes = (sortedKeys primes).flatMap (tgtsOf primes) := by
  unfold arcTargets arcEnum
  generalize sortedKeys primes = names
  induction names with
  | nil => simp
  | cons n rest ih => simp [ih, tgtsOf, Function.comp_def, List.map_const']

lemma tgtsOf_fst (primes : Primes) (name : String) :
    ∀ x ∈ tgtsOf primes name, x.1 = name := by
  intro x hx
  simp only [tgtsOf, List.mem_append, List.mem_replicate] at hx
  rcases hx with ⟨_, h⟩ | ⟨_, h⟩ <;> simp [h]

lemma pairwise_tgtsOf (primes : Primes) (name : String) :
    List.Pairwise targetOrd (tgtsOf primes name) := by
  rw [tgtsOf, List.pairwise_append]
  refine ⟨?_, ?_, ?_⟩
  · exact List.pairwise_replicate.mpr (Or.inr (Or.inr ⟨rfl, le_refl _⟩))
  · exact List.pairwise_replicate.mpr (Or.inr (Or.inr ⟨rfl, le_refl _⟩))
  · intro a ha b hb
    rw [List.eq_of_mem_replicate ha, List.eq_of_mem_replicate hb]
    exact Or.inr ⟨rfl, by norm_num⟩

lemma sorted_flatMap_targets (primes : Primes) (names : List String)
    (h : names.Sorted (· < ·)) :
    List.Sorted targetOrd (names.flatMap (tgtsOf primes)) := by
  refine List.pairwise_flatMap.mpr ⟨fun name _ => pairwise_tgtsOf primes name, ?_⟩
  refine h.imp ?_
  intro a b hab x hx y hy
  left
  rw [tgtsOf_fst primes a x hx, tgtsOf_fst primes b y hy]
  exact hab

/-- C6 (amended): the encoder is reproducible given the same creation date:
the generated program text depends only on the prime implicants, variant,
bounds, projection, extra-constraint lines and the date embedded in its
header comment, not on the destination file name; the arc facts appear in the
text as one contiguous run whose (variable, value) targets are ordered
lexicographically by variable name (when the variable names are distinct, as
in a Python dict) with value 0 before value 1, so identifiers `a1, a2, ...`
are assigned in that order. -/
theorem c6_deterministic_encoding (today : String) (primes : Primes)
    (bounds : Option (Int × Int)) (project : Option (List String)) (type_ : Option String)
    (extra : Option (List String)) (f g : String)
    (hnd : (primes.map Prod.fst).Nodup) :
    (primes2asp today primes (some f) bounds project type_ extra).map Prod.fst
      = (primes2asp today primes (some g) bounds project type_ extra).map Prod.fst
    ∧ List.Sorted targetOrd (arcTargets primes)
    ∧ ∃ pre post, primes2asp_lines today primes bounds project type_ extra
        = pre ++ arcLines primes ++ post := by
  refine ⟨?_, ?_, ?_⟩
  · by_cases h : type_ ∈ validAspTypes <;> simp [primes2asp, h, Except.map]
  · rw [arcTargets_eq]
    apply sorted_flatMap_targets
    have h1 : (sortedKeys primes).Sorted (· ≤ ·) := List.sorted_insertionSort _ _
    have h2 : (sortedKeys primes).Nodup :=
      ((List.perm_insertionSort _ _).nodup_iff).mpr hnd
    exact (h1.and h2).imp (fun hc => lt_of_le_of_ne hc.1 hc.2)
  · refine ⟨headerLines today,
      [""] ++ generatorBlock ++ closureBlock type_ ++ circuitsBlock type_ ++ hitBlock
        ++ boundsBlock bounds ++ extraBlock extra
        ++ showBlock (if pyTruthyList project = true then
            some ((project.getD []).filter (fun x => (primes.lookup x).isSome))
          else project) type_, ?_⟩
    simp [primes2asp_lines]

/-- C6 witness: the amended theorem at a concrete input. -/
theorem c6_deterministic_encoding_witness :
    (primes2asp "01. Jan. 2020" W1primes (some "a.asp") none none (some "all") none).map Prod.fst
      = (primes2asp "01. Jan. 2020" W1primes (some "b.asp") none none (some "all") none).map Prod.fst
    ∧ List.Sorted targetOrd (arcTargets W1primes)
    ∧ ∃ pre post, primes2asp_lines "01. Jan. 2020" W1primes none none (some "all") none
        = pre ++ arcLines W1primes ++ post :=
  c6_deterministic_encoding "01. Jan. 2020" W1primes none none (some "all") none
    "a.asp" "b.asp" (by decide)

/-- C6 counterexample: two invocations with identical primes, variant, bounds,
projection and extra-constraint inputs but different invocation dates produce
different program text, because the header comment embeds the current date;
so the claim as stated (which does not fix the date) fails. -/
theorem c6_counterexample :
    primes2asp_lines "01. Jan. 2020" W1primes none none (some "all") none
      ≠ primes2asp_lines "02. Jan. 2020" W1primes none none (some "all") none := by
  decide

lemma lookup_map_entry {α : Type} (l : List (String × α)) (f : String × α → String × α)
    (hkey : ∀ e, (f e).1 = e.1) (n : String) (a b : α)
    (h : l.lookup n = some a) (hval : (f (n, a)).2 = b) :
    (l.map f).lookup n = some b := by
  induction l with
  | nil => simp at h
  | cons e rest ih =>
    obtain ⟨k, w⟩ := e
    by_cases hk : n = k
    · subst hk
      rw [List.lookup_cons] at h
      simp at h
      subst h
      rcases hf : f (n, w) with ⟨k2, w2⟩
      have hk2 : k2 = n := by
        have hh := hkey (n, w)
        rw [hf] at hh
        exact hh
      subst hk2
      have hw2 : w2 = b := by
        rw [hf] at hval
        exact hval
      subst hw2
      simp [List.map_cons, hf, List.lookup_cons]
    · rcases hf : f (k, w) with ⟨k2, w2⟩
      have hk2 : k2 = k := by
        have hh := hkey (k, w)
        rw [hf] at hh
        exact hh
      subst hk2
      rw [List.lookup_cons] at h
      simp [beq_false_of_ne hk] at h
      simp [List.map_cons, hf, List.lookup_cons, beq_false_of_ne hk]
      exact ih h

lemma lookup_create_constants (primes : Primes) (ts : Subspace) (n : String) (v : Int)
    (a : List Prime × List Prime) (hp : primes.lookup n = some a) (hts : ts.lookup n = some v) :
    (create_constants primes ts true).lookup n = some (constantEntry v) := by
  unfold create_constants
  refine lookup_map_entry _ _ ?_ n a _ hp ?_
  · intro e
    cases h : ts.lookup e.1 <;> simp [h]
  · simp [hts]

lemma lookup_percolateStep (p : Primes) (n : String) (v : Int)
    (h : p.lookup n = some (constantEntry v)) :
    (percolateStep p).lookup n = some (constantEntry v) := by
  unfold percolateStep
  refine lookup_map_entry _ _ ?_ n (constantEntry v) _ h ?_
  · intro e
    dsimp only
    split_ifs <;> rfl
  · by_cases hv : v = 0 <;>
      simp [constantEntry, hv, substConstants, primeConsistent]

lemma lookup_percolateFix (k : Nat) (p : Primes) (n : String) (v : Int)
    (h : p.lookup n = some (constantEntry v)) :
    (percolateFix k p).lookup n = some (constantEntry v) := by
  induction k generalizing p with
  | zero => exact h
  | succ k ih => exact ih _ (lookup_percolateStep p n v h)

/-- A concrete two-variable network where each variable copies the other. -/
def c3Primes : Primes :=
  [("a", ([[("b", 0)]], [[("b", 1)]])), ("b", ([[("a", 0)]], [[("a", 1)]]))]

/-- C3 (amended): `percolate_trapspace` does mutate the caller's primes: it
calls `create_constants(primes, trap_space, in_place=True)` and then
percolates in place, so after the call every variable assigned by the trap
space is a constant with its assigned value in the caller's own structure. -/
theorem c3_percolate_mutates (primes : Primes) (ts : Subspace) (n : String) (v : Int)
    (hts : ts.lookup n = some v) (hn : (primes.lookup n).isSome) :
    ((percolate_trapspace primes ts).1).lookup n = some (constantEntry v) := by
  obtain ⟨a, ha⟩ := Option.isSome_iff_exists.mp hn
  unfold percolate_trapspace percolate_and_keep_constants
  dsimp only
  exact lookup_percolateFix _ _ n v (lookup_create_constants primes ts n v a ha hts)

/-- C3 witness: the amended theorem at a concrete input. -/
theorem c3_percolate_mutates_witness :
    ([("a", (1 : Int))] : Subspace).lookup "a" = some 1 ∧
    ((percolate_trapspace c3Primes [("a", 1)]).1).lookup "a" = some (constantEntry 1) :=
  ⟨rfl, c3_percolate_mutates c3Primes [("a", 1)] "a" 1 rfl (by decide)⟩

/-- C3 counterexample: after `percolate_trapspace(primes, {a: 1})` the caller's
primes structure is no longer equal to its value before the call, so the
operation does mutate the caller's original argument. -/
theorem c3_counterexample :
    (percolate_trapspace c3Primes [("a", 1)]).1 ≠ c3Primes := by decide

/-- C4: for a fully-specified state (a subspace fixing every variable) and the
`min` variant, whenever the decoded solver solutions are more than one the
query terminates with the fatal internal-consistency `sys.exit` (never
silently picking one), and whenever it returns at all it returns exactly one
result. -/
theorem c4_min_full_state_unique (rawOut rawErr today : String) (primes : Primes)
    (subspace : Subspace) (fname : Option String) (representation : String)
    (max_output : Nat) (h : Handled)
    (hfull : subspace.length = primes.length)
    (hcall : potassco_handle rawOut rawErr today (active_primes primes subspace) "min"
        none (some []) max_output fname representation none = .ok h) :
    (h.solutions.length > 1 →
      trapspaces_that_intersect_subspace rawOut rawErr today primes subspace "min" fname
        representation max_output = .error .sysExit)
    ∧ (∀ res, trapspaces_that_intersect_subspace rawOut rawErr today primes subspace "min" fname
        representation max_output = .ok res → res.solutions.length = 1) := by
  have hlen : ¬ ¬ (primes.length ≥ subspace.length) := by omega
  constructor
  · intro hgt
    simp only [trapspaces_that_intersect_subspace, if_neg hlen]
    rw [if_neg (by simp), hcall]
    dsimp only
    rw [if_neg (by rintro hemp; rw [hemp] at hgt; simp at hgt),
      if_pos ⟨hfull, trivial⟩, if_pos hgt]
  · intro res hres
    simp only [trapspaces_that_intersect_subspace, if_neg hlen] at hres
    rw [if_neg (by simp), hcall] at hres
    dsimp only at hres
    by_cases hemp : h.solutions = []
    · rw [if_pos hemp] at hres
      cases hres
      rfl
    · rw [if_neg hemp, if_pos ⟨hfull, trivial⟩] at hres
      by_cases hgt : h.solutions.length > 1
      · rw [if_pos hgt] at hres
        cases hres
      · rw [if_neg hgt] at hres
        obtain ⟨x, hx⟩ := Option.isSome_iff_exists.mp
          (List.getLast?_isSome.mpr hemp)
        rw [hx] at hres
        cases hres
        rfl

/-- The concrete outcome of the inner solver call used by the C4 witness. -/
def c4H : Handled :=
  (potassco_handle R2 "" "01. Jan. 2020" (active_primes W1primes [("x", 0)]) "min"
    none (some []) 10 (some "f.asp") "dict" none).toOption.getD ⟨"", [], false, []⟩

/-- C4 witness: a concrete full state whose solver call returns two minimal
solutions makes the query exit with the fatal internal-consistency error. -/
theorem c4_min_full_state_unique_witness :
    trapspaces_that_intersect_subspace R2 "" "01. Jan. 2020" W1primes [("x", 0)] "min"
      (some "f.asp") "dict" 10 = .error .sysExit :=
  (c4_min_full_state_unique R2 "" "01. Jan. 2020" W1primes [("x", 0)] (some "f.asp")
    "dict" 10 c4H rfl rfl).1 (by decide)

/-- C5: whenever the decoded solver solutions are empty,
`trapspaces_that_intersect_subspace` returns the one-element list containing
the empty subspace in the chosen representation, never an empty list. -/
theorem c5_empty_solutions_whole_space (rawOut rawErr today : String) (primes : Primes)
    (subspace : Subspace) (type_ : String) (fname : Option String) (representation : String)
    (max_output : Nat) (h : Handled)
    (hlen : primes.length ≥ subspace.length)
    (hcall : potassco_handle rawOut rawErr today (active_primes primes subspace) type_
        (if type_ = "max" then some (Bnd.int 1, Bnd.n) else none) (some []) max_output fname
        representation none = .ok h)
    (hempty : h.solutions = []) :
    trapspaces_that_intersect_subspace rawOut rawErr today primes subspace type_ fname
      representation max_output
      = .ok ⟨h.asp_text, h.writes, h.possibly_more, [emptyAnswer primes representation]⟩ := by
  simp only [trapspaces_that_intersect_subspace, if_neg (not_not_intro hlen)]
  rw [hcall]
  dsimp only
  rw [if_pos hempty]

/-- The concrete outcome of the inner solver call used by the C5 witness. -/
def c5H : Handled :=
  (potassco_handle R0 "" "01. Jan. 2020" (active_primes W1primes []) "all"
    none (some []) 10 (some "f.asp") "dict" none).toOption.getD ⟨"", [], false, []⟩

/-- C5 witness: a concrete query whose solver output has no answer sets
returns the singleton empty subspace. -/
theorem c5_empty_solutions_whole_space_witness :
    trapspaces_that_intersect_subspace R0 "" "01. Jan. 2020" W1primes [] "all"
      (some "f.asp") "dict" 10
      = .ok ⟨c5H.asp_text, c5H.writes, c5H.possibly_more, [emptyAnswer W1primes "dict"]⟩ :=
  c5_empty_solutions_whole_space R0 "" "01. Jan. 2020" W1primes [] "all" (some "f.asp")
    "dict" 10 c5H (by decide) rfl rfl

lemma decodeLoop_length_le (type_ : String) (m : Nat) :
    ∀ (n : Nat) (lines : List String), lines.length ≤ n → ∀ (acc r : List Solution),
      acc.length ≤ m → decodeLoop type_ m lines acc = some r → r.length ≤ m := by
  intro n
  induction n with
  | zero =>
    intro lines hlen acc r hacc h
    have hnil : lines = [] := List.eq_nil_of_length_eq_zero (Nat.le_zero.mp hlen)
    subst hnil
    rw [decodeLoop] at h
    cases h
    exact hacc
  | succ n ih =>
    intro lines hlen acc r hacc h
    cases lines with
    | nil =>
      rw [decodeLoop] at h
      cases h
      exact hacc
    | cons line rest =>
      rw [decodeLoop.eq_def] at h
      dsimp only at h
      by_cases hlt : acc.length < m
      · rw [if_pos hlt] at h
        by_cases hans : line.toList.take 6 = "Answer".toList
        · rw [if_pos hans] at h
          cases rest with
          | nil => simp at h
          | cons line2 rest2 =>
            cases hp : parseSolutionLine type_ line2 with
            | none =>
              simp only [hp] at h
              cases h
            | some sol =>
              simp only [hp] at h
              refine ih rest2 ?_ (acc ++ [sol]) r ?_ h
              · simp at hlen
                omega
              · simp
                omega
        · rw [if_neg hans] at h
          refine ih rest ?_ acc r hacc h
          simp at hlen
          omega
      · rw [if_neg hlt] at h
        cases h
        exact hacc

lemma decodeLoop_stop (type_ : String) (m : Nat) (lines : List String) (acc : List Solution)
    (hacc : acc.length = m) : decodeLoop type_ m lines acc = some acc := by
  cases lines with
  | nil => rw [decodeLoop]
  | cons l rest =>
    rw [decodeLoop.eq_def]
    dsimp only
    rw [if_neg]
    omega

lemma convertRepr_length (primes : Primes) (t r : String) (sols : List Solution) :
    (convertRepr primes t r sols).length = sols.length := by
  unfold convertRepr
  split_ifs <;> simp

/-- C7: the decoder returns at most `max_output` solutions; it stops as soon
as `max_output` solutions have been collected, returning them even if further
lines (more answer blocks) remain in the text; and the "possibly more
solutions" notice is logged exactly when `max_output` solutions were
collected. -/
theorem c7_decoder_truncation :
    (∀ (type_ out : String) (m : Nat) (r : List Solution),
        potassco_decode type_ out m = some r → r.length ≤ m)
    ∧ (∀ (type_ : String) (m : Nat) (lines : List String) (acc : List Solution),
        acc.length = m → decodeLoop type_ m lines acc = some acc)
    ∧ (∀ (rawOut rawErr today : String) (primes : Primes) (type_ : String)
        (bounds : Option (Bnd × Bnd)) (project : Option (List String)) (max_output : Nat)
        (fname : Option String) (representation : String) (extra : Option (List String))
        (h : Handled),
        potassco_handle rawOut rawErr today primes type_ bounds project max_output fname
          representation extra = .ok h →
        (h.possibly_more = true ↔ h.solutions.length = max_output)) := by
  refine ⟨?_, decodeLoop_stop, ?_⟩
  · intro type_ out m r h
    exact decodeLoop_length_le type_ m (pySplitOn out '\n').length _ le_rfl [] r
      (by simp) h
  · intro rawOut rawErr today primes type_ bounds project max_output fname representation
      extra h hcall
    simp only [potassco_handle] at hcall
    split at hcall
    · cases hcall
    · split at hcall
      · cases hcall
      · split at hcall
        · cases hcall
        · split at hcall
          · cases hcall
          · split at hcall
            · cases hcall
            · cases hcall
              simp [convertRepr_length]

/-- The truncated decode of the two-answer output used by the C7 witness. -/
def c7r : List Solution := (potassco_decode "all" R2 1).getD []

/-- The concrete `potassco_handle` outcome used by the C7 witness: cap 2 with
exactly two decoded solutions, so the "possibly more" notice fires. -/
def c7H : Handled :=
  (potassco_handle R2 "" "01. Jan. 2020" W1primes "all" none none 2 (some "g.asp") "dict"
    none).toOption.getD ⟨"", [], false, []⟩

/-- C7 witness: the three conjuncts at concrete inputs. -/
theorem c7_decoder_truncation_witness :
    c7r.length ≤ 1
    ∧ decodeLoop "all" 0 ["Answer: 1"] [] = some []
    ∧ (c7H.possibly_more = true ↔ c7H.solutions.length = 2) :=
  ⟨c7_decoder_truncation.1 "all" R2 1 c7r rfl,
   c7_decoder_truncation.2.1 "all" 0 ["Answer: 1"] [] rfl,
   c7_decoder_truncation.2.2 R2 "" "01. Jan. 2020" W1primes "all" none none 2 (some "g.asp")
     "dict" none c7H rfl⟩

/-- C8: for the empty subspace `trapspaces_within_subspace` returns exactly
the result of the unrestricted `trap_spaces` query with the same parameters;
for a non-empty subspace it calls the solver on the active primes with lower
bound `len(subspace)` and upper bound `"n"` and with one must-hit constraint
line per (name, value) pair of the subspace, and each must-hit line appears in
the generated program text. -/
theorem c8_within_subspace_encoding (rawOut rawErr today : String) (primes : Primes)
    (subspace : Subspace) (type_ : String) (fname : Option String) (representation : String)
    (max_output : Nat) :
    (trapspaces_within_subspace rawOut rawErr today primes [] type_ fname representation
        max_output
      = trap_spaces rawOut rawErr today primes type_ max_output fname representation)
    ∧ (subspace ≠ [] → primes.length ≥ subspace.length →
        trapspaces_within_subspace rawOut rawErr today primes subspace type_ fname
            representation max_output
          = potassco_handle rawOut rawErr today (active_primes primes subspace) type_
              (some (Bnd.int subspace.length, Bnd.n)) (some []) max_output fname
              representation (some (withinExtraLines subspace)))
    ∧ (∀ nv ∈ subspace, ∀ (bounds : Option (Int × Int)) (type2 : Option String),
        mustHitLine nv ∈ primes2asp_lines today (active_primes primes subspace) bounds
          (some []) type2 (some (withinExtraLines subspace))) := by
  refine ⟨rfl, ?_, ?_⟩
  · intro hne hlen
    simp only [trapspaces_within_subspace, if_neg hne, if_neg (not_not_intro hlen)]
  · intro nv hnv bounds type2
    have ht : pyTruthyList (some (withinExtraLines subspace)) = true := by
      simp [pyTruthyList, withinExtraLines]
    have hblock : extraBlock (some (withinExtraLines subspace))
        = withinExtraLines subspace := by
      unfold extraBlock
      rw [if_pos ht]
      rfl
    have hin : mustHitLine nv ∈ extraBlock (some (withinExtraLines subspace)) := by
      rw [hblock]
      exact List.mem_append_left _ (List.mem_map_of_mem _ hnv)
    simp [primes2asp_lines, List.mem_append, hin]

/-- C8 witness: the non-empty-subspace conjuncts at a concrete input. -/
theorem c8_within_subspace_encoding_witness :
    trapspaces_within_subspace R0 "" "01. Jan. 2020" W1primes [("x", 0)] "all" (some "f.asp")
        "dict" 10
      = potassco_handle R0 "" "01. Jan. 2020" (active_primes W1primes [("x", 0)]) "all"
          (some (Bnd.int 1, Bnd.n)) (some []) 10 (some "f.asp") "dict"
          (some (withinExtraLines [("x", 0)]))
    ∧ mustHitLine ("x", 0) ∈ primes2asp_lines "01. Jan. 2020"
        (active_primes W1primes [("x", 0)]) (some (1, 1)) (some []) (some "all")
        (some (withinExtraLines [("x", 0)])) :=
  ⟨(c8_within_subspace_encoding R0 "" "01. Jan. 2020" W1primes [("x", 0)] "all"
      (some "f.asp") "dict" 10).2.1 (by decide) (by decide),
   (c8_within_subspace_encoding R0 "" "01. Jan. 2020" W1primes [("x", 0)] "all"
      (some "f.asp") "dict" 10).2.2 ("x", 0) (by decide) (some (1, 1)) (some "all")⟩

/-- C9: `steady_states_projected` fails fast with the fatal `sys.exit` when
the projection list contains a name absent from the primes, and otherwise
issues the query with bounds `("n", "n")` (all variables fixed) via
`potassco_handle`. -/
theorem c9_steady_states_projected_check (rawOut rawErr today : String) (primes : Primes)
    (project : List String) (max_output : Nat) (fname : Option String) :
    ((∃ x ∈ project, (primes.lookup x).isNone) →
        steady_states_projected rawOut rawErr today primes project max_output fname
          = .error .sysExit)
    ∧ ((∀ x ∈ project, (primes.lookup x).isSome) →
        steady_states_projected rawOut rawErr today primes project max_output fname
          = potassco_handle rawOut rawErr today primes "all" (some (Bnd.n, Bnd.n))
              (some project) max_output fname "dict" none) := by
  constructor
  · rintro ⟨x, hx, hnone⟩
    have hne : project.filter (fun y => (primes.lookup y).isNone) ≠ [] := by
      intro hemp
      have := List.filter_eq_nil_iff.mp hemp x hx
      simp [hnone] at this
    simp [steady_states_projected, hne]
  · intro hall
    have heq : project.filter (fun y => (primes.lookup y).isNone) = [] := by
      apply List.filter_eq_nil_iff.mpr
      intro x hx
      have := hall x hx
      cases hlk : List.lookup x primes with
      | none => rw [hlk] at this; simp at this
      | some v => simp [hlk]
    simp [steady_states_projected, heq]

/-- C9 witness: a projection with an unknown name exits fatally; a projection
with known names runs the bounded query. -/
theorem c9_steady_states_projected_check_witness :
    steady_states_projected R0 "" "01. Jan. 2020" W1primes ["zz"] 10 (some "f.asp")
      = .error .sysExit
    ∧ steady_states_projected R0 "" "01. Jan. 2020" W1primes ["x"] 10 (some "f.asp")
      = potassco_handle R0 "" "01. Jan. 2020" W1primes "all" (some (Bnd.n, Bnd.n))
          (some ["x"]) 10 (some "f.asp") "dict" none :=
  ⟨(c9_steady_states_projected_check R0 "" "01. Jan. 2020" W1primes ["zz"] 10
      (some "f.asp")).1 ⟨"zz", by decide, by decide⟩,
   (c9_steady_states_projected_check R0 "" "01. Jan. 2020" W1primes ["x"] 10
      (some "f.asp")).2 (by decide)⟩

end PyBN
